import Mathlib

/-!
Verification of the taco-remote build orchestration core.

The request-handling layer is embedded from `src/taco-remote/lib/server.ts`
(class `Server`: `getRouter`, `getBuildStatus`, `getBuildLog`,
`getCompletedBuildInfo` and the post-build action handlers) and from the
earlier `server.ts` revision (the `Server` constructor's defaults loop and
`checkBuildThenAction`).  The build manager proper (`buildManager.ts`:
admission control, buildNumber allocation, the FIFO scheduler and the
eviction of old builds) is not among the sources — only its callers are —
so those operations are modelled from the spec, as marked in their doc
comments.
-/

/-- Build lifecycle status of a Build Record (spec §3). -/
inductive BuildStatus where
  | invalid
  | queued
  | building
  | complete
  | error
  | downloaded
  | emulated
  | deployed
  | ran
  | debugged
deriving DecidableEq, Repr

/-- A Build Record: identity and mutable state for one build (spec §3). -/
structure BuildRecord where
  buildNumber : Nat
  status : BuildStatus
deriving DecidableEq, Repr

/-- Modelled from the spec: `BuildInfo.buildSuccessful` (the `taco-utils`
`BuildInfo` class is not among the sources).  Spec §4.3: each post-build
operation requires `status == Complete`. -/
def BuildRecord.buildSuccessful (r : BuildRecord) : Bool :=
  r.status == .complete

/-- Modelled from the spec: `buildManager.getBuildInfo` (build-manager is not
among the sources).  Registry operation `get(buildNumber) -> Record |
NotFound` (spec §4.4), a pure lookup by `buildNumber`. -/
def getBuildInfo (registry : List BuildRecord) (id : Nat) : Option BuildRecord :=
  registry.find? (fun r => r.buildNumber == id)

/-- Bodies of the HTTP responses produced by the request layer. -/
inductive ResponseBody where
  | buildNotFound (id : Nat)
  | buildNotCompleted (status : BuildStatus)
  | buildInfoJson (record : BuildRecord)
  | logContent (bytes : List Char)
deriving DecidableEq, Repr

/-- An HTTP response: status code plus body. -/
structure HttpResponse where
  statusCode : Nat
  body : ResponseBody
deriving DecidableEq, Repr

/-- Handlers the router can dispatch to (the `Server` methods bound in
`getRouter`). -/
inductive HandlerTag where
  | submitNewBuildH
  | getBuildStatusH
  | getBuildLogH
  | getAllBuildStatusH
  | downloadBuildH
  | emulateBuildH
  | deployBuildH
  | runBuildH
  | debugBuildH
deriving DecidableEq, Repr

/-- HTTP method of a registered route. -/
inductive HttpMethod where
  | httpGet
  | httpPost
deriving DecidableEq, Repr

/-- One route registration: method, path pattern, bound handler. -/
structure Route where
  method : HttpMethod
  pattern : String
  handler : HandlerTag
deriving DecidableEq, Repr

/-- Embeds `Server.getRouter` (server.ts lines 74-92): the exact route table
registered on the express router, in registration order. -/
def getRouterRoutes : List Route :=
  [ ⟨.httpPost, "/build/tasks", .submitNewBuildH⟩,
    ⟨.httpGet, "/build/tasks/:id", .getBuildStatusH⟩,
    ⟨.httpGet, "/build/tasks/:id/log", .getBuildLogH⟩,
    ⟨.httpGet, "/build/tasks", .getAllBuildStatusH⟩,
    ⟨.httpGet, "/build/:id", .getBuildStatusH⟩,
    ⟨.httpGet, "/build/:id/download", .downloadBuildH⟩,
    ⟨.httpGet, "/build/:id/emulate", .emulateBuildH⟩,
    ⟨.httpGet, "/build/:id/deploy", .deployBuildH⟩,
    ⟨.httpGet, "/build/:id/run", .runBuildH⟩,
    ⟨.httpGet, "/build/:id/debug", .debugBuildH⟩ ]

/-- Embeds `Server.getCompletedBuildInfo` (server.ts lines 211-224): look up
the build; on an unknown id respond 404 `BuildNotFound` and yield no record;
on a known but not successful build respond 404 `BuildNotCompleted` and
yield no record; otherwise yield the record and write no response. -/
def getCompletedBuildInfo (registry : List BuildRecord) (id : Nat) :
    Option BuildRecord × Option HttpResponse :=
  match getBuildInfo registry id with
  | none => (none, some ⟨404, .buildNotFound id⟩)
  | some buildInfo =>
    if !buildInfo.buildSuccessful then
      (none, some ⟨404, .buildNotCompleted buildInfo.status⟩)
    else
      (some buildInfo, none)

/-- Outcome of a post-build action request: either the delegated build
manager action was invoked on the record, or a failure response was sent
and the action was not invoked. -/
inductive ActionResult where
  | invoked (record : BuildRecord)
  | failed (response : HttpResponse)
deriving DecidableEq, Repr

/-- Embeds the shared shape of `Server.downloadBuild` / `emulateBuild` /
`deployBuild` / `runBuild` / `debugBuild` (server.ts lines 160-208): call
`getCompletedBuildInfo` and delegate to the build manager action only when
it returned a record (`completedBuildInfo != null`).  The final case is
unreachable: `getCompletedBuildInfo` always writes a response when it
yields no record. -/
def postBuildAction (registry : List BuildRecord) (id : Nat) : ActionResult :=
  match getCompletedBuildInfo registry id with
  | (some completedBuildInfo, _) => .invoked completedBuildInfo
  | (none, some response) => .failed response
  | (none, none) => .failed ⟨404, .buildNotFound id⟩

/-- Embeds `Server.getBuildStatus` (server.ts lines 119-135): respond 200
with the record when known, 404 `BuildNotFound` otherwise; the registry is
only read, and is returned unchanged as the second component. -/
def getBuildStatusHandler (registry : List BuildRecord) (id : Nat) :
    HttpResponse × List BuildRecord :=
  match getBuildInfo registry id with
  | some buildInfo => (⟨200, .buildInfoJson buildInfo⟩, registry)
  | none => (⟨404, .buildNotFound id⟩, registry)

/-- Embeds the JavaScript coercion `req.query.offset | 0` in
`Server.getBuildLog` (server.ts line 144): an absent offset query parameter
coerces to 0. -/
def offsetOrZero : Option Nat → Nat
  | none => 0
  | some n => n

/-- Modelled from the spec: `buildManager.downloadBuildLog` (build-manager
is not among the sources).  Spec §6: stream the build's log from a byte
offset.  `logStore` maps each buildNumber to its append-only log bytes. -/
def downloadBuildLog (logStore : Nat → List Char) (id : Nat) (offset : Nat) :
    List Char :=
  (logStore id).drop offset

/-- Embeds `Server.getBuildLog` (server.ts lines 138-149): on a known build
respond with the log streamed from `req.query.offset | 0`; on an unknown id
respond 404 `BuildNotFound`. -/
def getBuildLogHandler (logStore : Nat → List Char) (registry : List BuildRecord)
    (id : Nat) (offset : Option Nat) : HttpResponse :=
  match getBuildInfo registry id with
  | some _ => ⟨200, .logContent (downloadBuildLog logStore id (offsetOrZero offset))⟩
  | none => ⟨404, .buildNotFound id⟩

/-- Configuration keys recognized by the core (earlier server.ts revision,
constructor lines 49-54). -/
inductive ConfKey where
  | maxBuildsInQueue
  | maxBuildsToKeep
  | deleteBuildsOnShutdown
  | allowsEmulate
deriving DecidableEq, Repr

/-- A configuration value: numeric or boolean. -/
inductive ConfValue where
  | natVal (n : Nat)
  | boolVal (b : Bool)
deriving DecidableEq, Repr

/-- An nconf-style configuration dictionary. -/
abbrev ConfDict := List (ConfKey × ConfValue)

/-- `conf.get(key)`: first binding for the key, if any. -/
def confGet : ConfDict → ConfKey → Option ConfValue
  | [], _ => none
  | (k', v) :: rest, k => if k' = k then some v else confGet rest k

/-- `conf.set(key, value)`: replace the existing binding or append one. -/
def confSet : ConfDict → ConfKey → ConfValue → ConfDict
  | [], k, v => [(k, v)]
  | (k', v') :: rest, k, v =>
    if k' = k then (k, v) :: rest else (k', v') :: confSet rest k v

/-- Embeds the `defaults` object of the `Server` constructor (earlier
server.ts revision, lines 49-54). -/
def serverDefaults : ConfDict :=
  [ (.maxBuildsInQueue, .natVal 10),
    (.maxBuildsToKeep, .natVal 20),
    (.deleteBuildsOnShutdown, .boolVal true),
    (.allowsEmulate, .boolVal true) ]

/-- Embeds `Win32Specifics.defaults` (win32 host-specifics source): the
host-specific defaults object is empty, so the base defaults pass through
unchanged. -/
def hostSpecificsDefaults (base : ConfDict) : ConfDict :=
  base

/-- Embeds the defaults-application loop of the `Server` constructor
(earlier server.ts revision, lines 55-60): for each key of the host
defaults, set it on the configuration only when it is currently
undefined. -/
def applyDefaults (conf : ConfDict) : ConfDict :=
  (hostSpecificsDefaults serverDefaults).foldl
    (fun c kv => if (confGet c kv.1).isNone then confSet c kv.1 kv.2 else c) conf

/-- The configuration values the build manager consumes (spec §6). -/
structure TacoRemoteConf where
  maxBuildsInQueue : Nat
  maxBuildsToKeep : Nat
deriving DecidableEq, Repr

/-- Admission-control failures of `submit` (spec §7). -/
inductive AdmissionError where
  | queueFull
deriving DecidableEq, Repr

/-- State of the build manager: the next buildNumber to allocate, the
Registry of Build Records in submission order, the set of buildNumbers
whose `workingDirectory`/`logPath` exist in storage, and a history variable
recording buildNumbers in the order they entered `Building`. -/
structure BuildManagerState where
  nextBuildNumber : Nat
  builds : List BuildRecord
  store : List Nat
  started : List Nat
deriving Repr

/-- A record counts against the admission ceiling while `Queued` or
`Building` (spec §4.1). -/
def isActive (r : BuildRecord) : Bool :=
  r.status == .queued || r.status == .building

/-- Number of Records currently in `Queued` or `Building` state. -/
def activeCount (builds : List BuildRecord) : Nat :=
  builds.countP isActive

/-- Modelled from the spec: `buildManager.submitNewBuild` (build-manager is
not among the sources).  Spec §4.1 `submit`: when the number of `Queued` or
`Building` Records is at or above `maxBuildsInQueue`, fail with `QueueFull`
and create no Record; otherwise allocate the next `buildNumber`, create a
`Queued` Record with its storage, and return the number. -/
def submitNewBuild (conf : TacoRemoteConf) (s : BuildManagerState) :
    Except AdmissionError Nat × BuildManagerState :=
  if conf.maxBuildsInQueue ≤ activeCount s.builds then
    (.error .queueFull, s)
  else
    (.ok s.nextBuildNumber,
      { s with
        nextBuildNumber := s.nextBuildNumber + 1,
        builds := s.builds ++ [⟨s.nextBuildNumber, .queued⟩],
        store := s.store ++ [s.nextBuildNumber] })

/-- Update the status of the record(s) carrying the given buildNumber. -/
def setStatus (builds : List BuildRecord) (n : Nat) (st : BuildStatus) :
    List BuildRecord :=
  builds.map (fun r => if r.buildNumber == n then { r with status := st } else r)

/-- Whether some Record is currently `Building`. -/
def hasBuilding (builds : List BuildRecord) : Bool :=
  builds.any (fun r => r.status == .building)

/-- Modelled from the spec: the scheduler loop of `buildManager`
(build-manager is not among the sources).  Spec §4.1: whenever no build is
`Building` and the FIFO is non-empty, dequeue the head (the first `Queued`
Record in submission order) and transition it to `Building`.  The started
history records the hand-off order. -/
def startNextBuild (s : BuildManagerState) : BuildManagerState :=
  if hasBuilding s.builds then s
  else
    match s.builds.find? (fun r => r.status == .queued) with
    | none => s
    | some r =>
      { s with
        builds := setStatus s.builds r.buildNumber .building,
        started := s.started ++ [r.buildNumber] }

/-- A Record is terminal when `Complete` or `Error` (spec §4.5). -/
def isTerminal (r : BuildRecord) : Bool :=
  r.status == .complete || r.status == .error

/-- The terminal Records of the Registry, in Registry order. -/
def terminalBuilds (builds : List BuildRecord) : List BuildRecord :=
  builds.filter isTerminal

/-- Modelled from the spec: victim selection of the eviction pass
(build-manager is not among the sources).  Spec §4.5: when the count of
terminal Records exceeds `maxBuildsToKeep`, select the terminal Records
with the smallest `buildNumber` values in excess of the limit. -/
def evictionVictims (conf : TacoRemoteConf) (builds : List BuildRecord) :
    List Nat :=
  if conf.maxBuildsToKeep < (terminalBuilds builds).length then
    (((terminalBuilds builds).map (fun r => r.buildNumber)).mergeSort
        (fun a b => decide (a ≤ b))).take
      ((terminalBuilds builds).length - conf.maxBuildsToKeep)
  else []

/-- Modelled from the spec: the eviction pass (build-manager is not among
the sources).  Spec §4.5: delete each victim's `workingDirectory` and
`logPath` from storage, then remove it from the Registry. -/
def evictOldBuilds (conf : TacoRemoteConf) (s : BuildManagerState) :
    BuildManagerState :=
  { s with
    builds := s.builds.filter
      (fun r => !(evictionVictims conf s.builds).contains r.buildNumber),
    store := s.store.filter
      (fun n => !(evictionVictims conf s.builds).contains n) }

/-- Modelled from the spec: worker completion (build-manager is not among
the sources).  Spec §4.2: the `Building` Record transitions to `Complete`
on zero exit and to `Error` otherwise; spec §4.5: after a Record reaches a
terminal state the eviction pass runs. -/
def finishCurrentBuild (conf : TacoRemoteConf) (success : Bool)
    (s : BuildManagerState) : BuildManagerState :=
  match s.builds.find? (fun r => r.status == .building) with
  | none => s
  | some r =>
    evictOldBuilds conf
      { s with
        builds := setStatus s.builds r.buildNumber
          (if success then .complete else .error) }

/-- Events driving the build manager. -/
inductive BuildEvent where
  | submit
  | start
  | finish (success : Bool)
deriving DecidableEq, Repr

/-- One step of the build manager. -/
def stepEvent (conf : TacoRemoteConf) (s : BuildManagerState) :
    BuildEvent → BuildManagerState
  | .submit => (submitNewBuild conf s).2
  | .start => startNextBuild s
  | .finish success => finishCurrentBuild conf success s

/-- The build manager's state at server start: empty Registry, first
buildNumber 1. -/
def initState : BuildManagerState :=
  ⟨1, [], [], []⟩

/-- The state reached from server start after a sequence of events. -/
def runEvents (conf : TacoRemoteConf) (events : List BuildEvent) :
    BuildManagerState :=
  events.foldl (stepEvent conf) initState

/-- The buildNumbers returned by accepted submissions along an event
sequence, in submission order. -/
def assignedNumbers (conf : TacoRemoteConf) :
    BuildManagerState → List BuildEvent → List Nat
  | _, [] => []
  | s, e :: es =>
    match e with
    | .submit =>
      match submitNewBuild conf s with
      | (Except.ok n, s') => n :: assignedNumbers conf s' es
      | (Except.error _, s') => assignedNumbers conf s' es
    | _ => assignedNumbers conf (stepEvent conf s e) es

/-- The buildNumbers of the Registry, in Registry order. -/
def buildNumbers (builds : List BuildRecord) : List Nat :=
  builds.map (fun r => r.buildNumber)

/-- Invariant of reachable build manager states: the Registry is strictly
sorted by buildNumber (hence in submission order and duplicate-free), every
known buildNumber is below the allocation counter, at most one Record is
`Building`, and the started history is strictly increasing and below every
still-`Queued` buildNumber. -/
structure StateInv (s : BuildManagerState) : Prop where
  sorted : List.Pairwise (· < ·) (buildNumbers s.builds)
  ltNext : ∀ r ∈ s.builds, r.buildNumber < s.nextBuildNumber
  oneBuilding : s.builds.countP (fun r => r.status == .building) ≤ 1
  startedLtNext : ∀ x ∈ s.started, x < s.nextBuildNumber
  startedSorted : List.Pairwise (· < ·) s.started
  startedLtQueued : ∀ x ∈ s.started, ∀ r ∈ s.builds,
    r.status = .queued → x < r.buildNumber

theorem buildNumbers_setStatus (builds : List BuildRecord) (n : Nat)
    (st : BuildStatus) :
    buildNumbers (setStatus builds n st) = buildNumbers builds := by
  unfold buildNumbers setStatus
  rw [List.map_map]
  apply List.map_congr_left
  intro r _
  simp only [Function.comp]
  split <;> rfl

theorem mem_setStatus {builds : List BuildRecord} {n : Nat} {st : BuildStatus}
    {r' : BuildRecord} (h : r' ∈ setStatus builds n st) :
    ∃ r ∈ builds,
      r' = if r.buildNumber == n then { r with status := st } else r := by
  unfold setStatus at h
  obtain ⟨r, hr, heq⟩ := List.mem_map.mp h
  exact ⟨r, hr, heq.symm⟩

theorem nodup_of_sorted {l : List Nat} (h : List.Pairwise (· < ·) l) :
    l.Nodup :=
  h.imp Nat.ne_of_lt

theorem find?_queued_min {builds : List BuildRecord} {q : BuildRecord}
    (hs : List.Pairwise (· < ·) (buildNumbers builds))
    (hf : builds.find? (fun r => r.status == .queued) = some q) :
    ∀ r ∈ builds, r.status = .queued → r.buildNumber ≠ q.buildNumber →
      q.buildNumber < r.buildNumber := by
  induction builds with
  | nil => simp at hf
  | cons b bs ih =>
    have hs' : List.Pairwise (· < ·) (buildNumbers bs) :=
      (List.pairwise_cons.mp hs).2
    by_cases hb : b.status = .queued
    · rw [List.find?_cons_of_pos bs (by simp [hb])] at hf
      cases hf
      intro r hr _ hne
      rcases List.mem_cons.mp hr with heq | hmem
      · exact absurd (congrArg BuildRecord.buildNumber heq) hne
      · exact (List.pairwise_cons.mp hs).1 r.buildNumber
          (List.mem_map.mpr ⟨r, hmem, rfl⟩)
    · rw [List.find?_cons_of_neg bs (by simp [hb])] at hf
      intro r hr hrq hne
      rcases List.mem_cons.mp hr with heq | hmem
      · exact absurd (heq ▸ hrq) hb
      · exact ih hs' hf r hmem hrq hne

theorem stateInv_submitNewBuild (conf : TacoRemoteConf) (s : BuildManagerState)
    (h : StateInv s) : StateInv (submitNewBuild conf s).2 := by
  unfold submitNewBuild
  by_cases hfull : conf.maxBuildsInQueue ≤ activeCount s.builds
  · simpa [hfull] using h
  · simp only [hfull, if_false]
    refine ⟨?_, ?_, ?_, ?_, ?_, ?_⟩
    · show List.Pairwise (· < ·)
        (buildNumbers (s.builds ++ [⟨s.nextBuildNumber, .queued⟩]))
      unfold buildNumbers
      rw [List.map_append, List.pairwise_append]
      refine ⟨h.sorted, by simp, ?_⟩
      intro a ha m hm
      obtain ⟨r, hr, hrn⟩ := List.mem_map.mp ha
      simp only [List.map_cons, List.map_nil, List.mem_singleton] at hm
      exact hm ▸ hrn ▸ h.ltNext r hr
    · intro r hr
      rcases List.mem_append.mp hr with hmem | hmem
      · exact Nat.lt_succ_of_lt (h.ltNext r hmem)
      · simp only [List.mem_singleton] at hmem
        simp [hmem]
    · show List.countP _ (s.builds ++ [⟨s.nextBuildNumber, .queued⟩]) ≤ 1
      rw [List.countP_append]
      simpa using h.oneBuilding
    · intro x hx
      exact Nat.lt_succ_of_lt (h.startedLtNext x hx)
    · exact h.startedSorted
    · intro x hx r hr hrq
      rcases List.mem_append.mp hr with hmem | hmem
      · exact h.startedLtQueued x hx r hmem hrq
      · simp only [List.mem_singleton] at hmem
        subst hmem
        exact h.startedLtNext x hx

theorem stateInv_evictOldBuilds (conf : TacoRemoteConf) (s : BuildManagerState)
    (h : StateInv s) : StateInv (evictOldBuilds conf s) := by
  unfold evictOldBuilds
  refine ⟨?_, ?_, ?_, h.startedLtNext, h.startedSorted, ?_⟩
  · exact h.sorted.sublist ((List.filter_sublist s.builds).map _)
  · intro r hr
    exact h.ltNext r (List.mem_filter.mp hr).1
  · calc List.countP (fun r => r.status == .building) (s.builds.filter _)
        ≤ List.countP (fun r => r.status == .building) s.builds := by
          rw [List.countP_filter]
          exact List.countP_mono_left
            (fun r _ hpq => ((Bool.and_eq_true _ _).mp hpq).1)
      _ ≤ 1 := h.oneBuilding
  · intro x hx r hr hrq
    exact h.startedLtQueued x hx r (List.mem_filter.mp hr).1 hrq

theorem stateInv_setStatusNotQueuedNotBuilding (s : BuildManagerState)
    (n : Nat) (st : BuildStatus) (hnb : st ≠ .building) (hnq : st ≠ .queued) :
    StateInv s → StateInv { s with builds := setStatus s.builds n st } := by
  intro h
  refine ⟨?_, ?_, ?_, h.startedLtNext, h.startedSorted, ?_⟩
  · show List.Pairwise (· < ·) (buildNumbers (setStatus s.builds n st))
    rw [buildNumbers_setStatus]
    exact h.sorted
  · intro r' hr'
    obtain ⟨r, hr, heq⟩ := mem_setStatus hr'
    have : r'.buildNumber = r.buildNumber := by
      subst heq; split <;> rfl
    rw [this]
    exact h.ltNext r hr
  · show List.countP _ (setStatus s.builds n st) ≤ 1
    unfold setStatus
    rw [List.countP_map]
    calc List.countP _ s.builds
        ≤ List.countP (fun r => r.status == .building) s.builds := by
          apply List.countP_mono_left
          intro r _ hp
          simp only [Function.comp] at hp
          by_cases hbn : r.buildNumber == n
          · rw [if_pos hbn] at hp
            exact absurd (eq_of_beq hp) hnb
          · rwa [if_neg hbn] at hp
      _ ≤ 1 := h.oneBuilding
  · intro x hx r' hr' hrq
    obtain ⟨r, hr, heq⟩ := mem_setStatus hr'
    by_cases hbn : r.buildNumber == n
    · rw [if_pos hbn] at heq
      rw [heq] at hrq
      exact absurd hrq hnq
    · rw [if_neg hbn] at heq
      rw [heq] at hrq ⊢
      exact h.startedLtQueued x hx r hr hrq

theorem stateInv_startNextBuild (s : BuildManagerState) (h : StateInv s) :
    StateInv (startNextBuild s) := by
  unfold startNextBuild
  cases hhb : hasBuilding s.builds with
  | true => simpa using h
  | false =>
    have hnobuild : ∀ r ∈ s.builds, ¬(r.status == BuildStatus.building) = true := by
      rw [hasBuilding, List.any_eq_false] at hhb
      exact hhb
    simp only [Bool.false_eq_true, if_false]
    cases hf : s.builds.find? (fun r => r.status == .queued) with
    | none => exact h
    | some q =>
      have hqmem : q ∈ s.builds := List.mem_of_find?_eq_some hf
      have hqstat : q.status = .queued := by
        have hq := List.find?_some hf
        simpa using hq
      have hmin := find?_queued_min h.sorted hf
      refine ⟨?_, ?_, ?_, ?_, ?_, ?_⟩
      · show List.Pairwise (· < ·)
          (buildNumbers (setStatus s.builds q.buildNumber .building))
        rw [buildNumbers_setStatus]
        exact h.sorted
      · intro r' hr'
        obtain ⟨r, hr, heq⟩ := mem_setStatus hr'
        have hsame : r'.buildNumber = r.buildNumber := by
          subst heq; split <;> rfl
        rw [hsame]
        exact h.ltNext r hr
      · show List.countP _ (setStatus s.builds q.buildNumber .building) ≤ 1
        unfold setStatus
        rw [List.countP_map]
        have hcong : List.countP
            ((fun r => r.status == BuildStatus.building) ∘ fun r =>
              if r.buildNumber == q.buildNumber then { r with status := .building }
              else r) s.builds
            = List.countP (fun r => r.buildNumber == q.buildNumber) s.builds := by
          apply List.countP_congr
          intro r hr
          simp only [Function.comp]
          by_cases hbn : r.buildNumber == q.buildNumber
          · rw [if_pos hbn]
            simp [hbn]
          · rw [if_neg hbn]
            simp only [hbn]
            exact ⟨fun hc => absurd hc (hnobuild r hr), fun hc => by simp at hc⟩
        rw [hcong]
        have : List.countP (fun r => r.buildNumber == q.buildNumber) s.builds
            = List.count q.buildNumber (buildNumbers s.builds) := by
          rw [List.count_eq_countP, buildNumbers, List.countP_map]
          rfl
        rw [this]
        exact (List.nodup_iff_count_le_one.mp (nodup_of_sorted h.sorted)) _
      · intro x hx
        rcases List.mem_append.mp hx with hmem | hmem
        · exact h.startedLtNext x hmem
        · simp only [List.mem_singleton] at hmem
          exact hmem ▸ h.ltNext q hqmem
      · rw [List.pairwise_append]
        refine ⟨h.startedSorted, by simp, ?_⟩
        intro a ha b hb
        simp only [List.mem_singleton] at hb
        exact hb ▸ h.startedLtQueued a ha q hqmem hqstat
      · intro x hx r' hr' hrq
        obtain ⟨r, hr, heq⟩ := mem_setStatus hr'
        by_cases hbn : r.buildNumber == q.buildNumber
        · rw [if_pos hbn] at heq
          rw [heq] at hrq
          simp at hrq
        · rw [if_neg hbn] at heq
          rw [heq] at hrq ⊢
          rcases List.mem_append.mp hx with hmem | hmem
          · exact h.startedLtQueued x hmem r hr hrq
          · simp only [List.mem_singleton] at hmem
            subst hmem
            exact hmin r hr hrq (by simpa using hbn)

theorem stateInv_finishCurrentBuild (conf : TacoRemoteConf) (success : Bool)
    (s : BuildManagerState) (h : StateInv s) :
    StateInv (finishCurrentBuild conf success s) := by
  unfold finishCurrentBuild
  cases hf : s.builds.find? (fun r => r.status == .building) with
  | none => exact h
  | some r =>
    apply stateInv_evictOldBuilds
    apply stateInv_setStatusNotQueuedNotBuilding
    · cases success <;> simp
    · cases success <;> simp
    · exact h

theorem stateInv_stepEvent (conf : TacoRemoteConf) (s : BuildManagerState)
    (e : BuildEvent) (h : StateInv s) : StateInv (stepEvent conf s e) := by
  cases e with
  | submit => exact stateInv_submitNewBuild conf s h
  | start => exact stateInv_startNextBuild s h
  | finish success => exact stateInv_finishCurrentBuild conf success s h

theorem stateInv_initState : StateInv initState := by
  refine ⟨?_, ?_, ?_, ?_, ?_, ?_⟩ <;> simp [initState, buildNumbers]

theorem stateInv_foldl (conf : TacoRemoteConf) (events : List BuildEvent) :
    ∀ s : BuildManagerState, StateInv s →
      StateInv (events.foldl (stepEvent conf) s) := by
  induction events with
  | nil => intro s h; exact h
  | cons e es ih =>
    intro s h
    exact ih (stepEvent conf s e) (stateInv_stepEvent conf s e h)

theorem stateInv_runEvents (conf : TacoRemoteConf) (events : List BuildEvent) :
    StateInv (runEvents conf events) :=
  stateInv_foldl conf events initState stateInv_initState

theorem startNextBuild_nextBuildNumber (s : BuildManagerState) :
    (startNextBuild s).nextBuildNumber = s.nextBuildNumber := by
  unfold startNextBuild
  split
  · rfl
  · split <;> rfl

theorem finishCurrentBuild_nextBuildNumber (conf : TacoRemoteConf)
    (success : Bool) (s : BuildManagerState) :
    (finishCurrentBuild conf success s).nextBuildNumber = s.nextBuildNumber := by
  unfold finishCurrentBuild evictOldBuilds
  split <;> rfl

theorem nextBuildNumber_le_stepEvent (conf : TacoRemoteConf)
    (s : BuildManagerState) (e : BuildEvent) :
    s.nextBuildNumber ≤ (stepEvent conf s e).nextBuildNumber := by
  cases e with
  | submit =>
    show s.nextBuildNumber ≤ (submitNewBuild conf s).2.nextBuildNumber
    unfold submitNewBuild
    by_cases hfull : conf.maxBuildsInQueue ≤ activeCount s.builds <;>
      simp [hfull]
  | start =>
    show s.nextBuildNumber ≤ (startNextBuild s).nextBuildNumber
    rw [startNextBuild_nextBuildNumber]
  | finish success =>
    show s.nextBuildNumber ≤ (finishCurrentBuild conf success s).nextBuildNumber
    rw [finishCurrentBuild_nextBuildNumber]

theorem assignedNumbers_cons_submit (conf : TacoRemoteConf)
    (s : BuildManagerState) (es : List BuildEvent) :
    assignedNumbers conf s (.submit :: es) =
      match submitNewBuild conf s with
      | (Except.ok n, s') => n :: assignedNumbers conf s' es
      | (Except.error _, s') => assignedNumbers conf s' es := rfl

theorem assignedNumbers_cons_start (conf : TacoRemoteConf)
    (s : BuildManagerState) (es : List BuildEvent) :
    assignedNumbers conf s (.start :: es) =
      assignedNumbers conf (stepEvent conf s .start) es := rfl

theorem assignedNumbers_cons_finish (conf : TacoRemoteConf)
    (s : BuildManagerState) (success : Bool) (es : List BuildEvent) :
    assignedNumbers conf s (.finish success :: es) =
      assignedNumbers conf (stepEvent conf s (.finish success)) es := rfl

theorem assignedNumbers_pairwise_aux (conf : TacoRemoteConf) :
    ∀ (events : List BuildEvent) (s : BuildManagerState),
      List.Pairwise (· < ·) (assignedNumbers conf s events) ∧
      ∀ n ∈ assignedNumbers conf s events, s.nextBuildNumber ≤ n := by
  intro events
  induction events with
  | nil => intro s; simp [assignedNumbers]
  | cons e es ih =>
    intro s
    cases e with
    | submit =>
      rw [assignedNumbers_cons_submit]
      unfold submitNewBuild
      by_cases hfull : conf.maxBuildsInQueue ≤ activeCount s.builds
      · simp only [hfull, if_true]
        exact ih s
      · simp only [hfull, if_false]
        have hih := ih { s with
          nextBuildNumber := s.nextBuildNumber + 1,
          builds := s.builds ++ [⟨s.nextBuildNumber, .queued⟩],
          store := s.store ++ [s.nextBuildNumber] }
        constructor
        · refine List.pairwise_cons.mpr ⟨?_, hih.1⟩
          intro m hm
          exact Nat.lt_of_succ_le (hih.2 m hm)
        · intro n hn
          rcases List.mem_cons.mp hn with heq | hmem
          · exact Nat.le_of_eq heq.symm
          · exact Nat.le_trans (Nat.le_succ _) (hih.2 n hmem)
    | start =>
      rw [assignedNumbers_cons_start]
      have hih := ih (stepEvent conf s .start)
      refine ⟨hih.1, fun n hn => ?_⟩
      exact Nat.le_trans (nextBuildNumber_le_stepEvent conf s .start)
        (hih.2 n hn)
    | finish success =>
      rw [assignedNumbers_cons_finish]
      have hih := ih (stepEvent conf s (.finish success))
      refine ⟨hih.1, fun n hn => ?_⟩
      exact Nat.le_trans (nextBuildNumber_le_stepEvent conf s (.finish success))
        (hih.2 n hn)

/-- The eviction-pass properties asserted by the spec, bundled: the victim
count is exactly the excess over `maxBuildsToKeep`; every victim is the
buildNumber of a terminal Record; every victim is smaller than the
buildNumber of every terminal Record that remains; `Queued` and `Building`
Records are never evicted; an evicted buildNumber is no longer found by
`getBuildInfo`; and its storage entry is gone. -/
def evictionCorrect (conf : TacoRemoteConf) (s : BuildManagerState) : Prop :=
  (evictionVictims conf s.builds).length
      = (terminalBuilds s.builds).length - conf.maxBuildsToKeep ∧
  (∀ v ∈ evictionVictims conf s.builds,
    ∃ r ∈ s.builds, r.buildNumber = v ∧ isTerminal r = true) ∧
  (∀ v ∈ evictionVictims conf s.builds,
    ∀ r ∈ (evictOldBuilds conf s).builds, isTerminal r = true →
      v < r.buildNumber) ∧
  (∀ r ∈ s.builds, isActive r = true → r ∈ (evictOldBuilds conf s).builds) ∧
  (∀ v ∈ evictionVictims conf s.builds,
    getBuildInfo (evictOldBuilds conf s).builds v = none) ∧
  (∀ v ∈ evictionVictims conf s.builds, v ∉ (evictOldBuilds conf s).store)

theorem terminal_numbers_sublist (builds : List BuildRecord) :
    ((terminalBuilds builds).map (fun r => r.buildNumber)).Sublist
      (buildNumbers builds) :=
  (List.filter_sublist builds).map _

theorem victims_mem_terminal {conf : TacoRemoteConf} {builds : List BuildRecord}
    {v : Nat} (hv : v ∈ evictionVictims conf builds) :
    ∃ r ∈ builds, r.buildNumber = v ∧ isTerminal r = true := by
  unfold evictionVictims at hv
  split at hv
  · have hvs : v ∈ ((terminalBuilds builds).map
        (fun r => r.buildNumber)).mergeSort (fun a b => decide (a ≤ b)) :=
      (List.take_sublist _ _).subset hv
    have hvt : v ∈ (terminalBuilds builds).map (fun r => r.buildNumber) :=
      (List.mergeSort_perm _ _).mem_iff.mp hvs
    obtain ⟨r, hr, hrn⟩ := List.mem_map.mp hvt
    obtain ⟨hrb, hrt⟩ := List.mem_filter.mp hr
    exact ⟨r, hrb, hrn, hrt⟩
  · simp at hv

theorem sortedNumbers_facts (builds : List BuildRecord)
    (hnd : (buildNumbers builds).Nodup) :
    List.Pairwise (· ≤ ·)
      (((terminalBuilds builds).map (fun r => r.buildNumber)).mergeSort
        (fun a b => decide (a ≤ b))) ∧
    (((terminalBuilds builds).map (fun r => r.buildNumber)).mergeSort
        (fun a b => decide (a ≤ b))).Nodup ∧
    (((terminalBuilds builds).map (fun r => r.buildNumber)).mergeSort
        (fun a b => decide (a ≤ b))).length = (terminalBuilds builds).length := by
  have hperm := List.mergeSort_perm
    ((terminalBuilds builds).map (fun r => r.buildNumber))
    (fun a b => decide (a ≤ b))
  refine ⟨?_, ?_, ?_⟩
  · have hs := @List.sorted_mergeSort Nat
      (fun a b : Nat => decide (a ≤ b))
      (fun a b c hab hbc => by
        simp only [decide_eq_true_eq] at *
        omega)
      (fun a b => by
        simp only [Bool.or_eq_true, decide_eq_true_eq]
        exact Nat.le_total a b)
      ((terminalBuilds builds).map (fun r => r.buildNumber))
    exact hs.imp (fun h => of_decide_eq_true h)
  · refine hperm.nodup_iff.mpr ?_
    exact List.Nodup.sublist (terminal_numbers_sublist builds) hnd
  · rw [hperm.length_eq, List.length_map]

theorem evictOldBuilds_correct (conf : TacoRemoteConf) (s : BuildManagerState)
    (hnd : (buildNumbers s.builds).Nodup)
    (hover : conf.maxBuildsToKeep < (terminalBuilds s.builds).length) :
    evictionCorrect conf s := by
  obtain ⟨hsorted, hSnodup, hlen⟩ := sortedNumbers_facts s.builds hnd
  set sortedL := ((terminalBuilds s.builds).map (fun r => r.buildNumber)).mergeSort
    (fun a b => decide (a ≤ b)) with hsortedL
  set k := (terminalBuilds s.builds).length - conf.maxBuildsToKeep with hkdef
  have hvic : evictionVictims conf s.builds = sortedL.take k := by
    unfold evictionVictims
    rw [if_pos hover]
  have hsplit : sortedL.take k ++ sortedL.drop k = sortedL :=
    List.take_append_drop k sortedL
  have htdle : ∀ a ∈ sortedL.take k, ∀ b ∈ sortedL.drop k, a ≤ b := by
    have hp := hsorted
    rw [← hsplit] at hp
    exact (List.pairwise_append.mp hp).2.2
  have hdisj : (sortedL.take k).Disjoint (sortedL.drop k) := by
    have hp := hSnodup
    rw [← hsplit] at hp
    exact (List.nodup_append.mp hp).2.2
  have hmemvic : ∀ v, v ∈ evictionVictims conf s.builds ↔ v ∈ sortedL.take k := by
    intro v; rw [hvic]
  refine ⟨?_, ?_, ?_, ?_, ?_, ?_⟩
  · rw [hvic, List.length_take, hlen]
    omega
  · intro v hv
    exact victims_mem_terminal hv
  · intro v hv r hr hterm
    have hvt : v ∈ sortedL.take k := (hmemvic v).mp hv
    obtain ⟨hrb, hpred⟩ := List.mem_filter.mp hr
    have hnvic : r.buildNumber ∉ evictionVictims conf s.builds := by
      simp only [Bool.not_eq_eq_eq_not, Bool.not_true] at hpred
      simpa using hpred
    have hrs : r.buildNumber ∈ sortedL := by
      apply ((List.mergeSort_perm _ _).mem_iff (a := r.buildNumber)).mpr
      exact List.mem_map.mpr ⟨r, List.mem_filter.mpr ⟨hrb, hterm⟩, rfl⟩
    have hrd : r.buildNumber ∈ sortedL.drop k := by
      rcases List.mem_append.mp (hsplit ▸ hrs) with hcase | hcase
      · exact absurd ((hmemvic r.buildNumber).mpr hcase) hnvic
      · exact hcase
    have hle := htdle v hvt r.buildNumber hrd
    have hne : v ≠ r.buildNumber := by
      intro heq
      exact hdisj hvt (heq ▸ hrd)
    exact Nat.lt_of_le_of_ne hle hne
  · intro r hr hact
    apply List.mem_filter.mpr
    refine ⟨hr, ?_⟩
    have hnv : r.buildNumber ∉ evictionVictims conf s.builds := by
      intro hv
      obtain ⟨t, htb, htn, htt⟩ := victims_mem_terminal hv
      have hnd' : (List.map (fun r => r.buildNumber) s.builds).Nodup := hnd
      have hinj := List.inj_on_of_nodup_map (f := fun r => r.buildNumber)
        (l := s.builds) hnd' 
      have : t = r := hinj htb hr htn
      subst this
      cases hst : t.status <;>
        simp [isActive, isTerminal, hst] at hact htt
    simpa using hnv
  · intro v hv
    apply List.find?_eq_none.mpr
    intro r hr
    obtain ⟨_, hpred⟩ := List.mem_filter.mp hr
    have hnvic : r.buildNumber ∉ evictionVictims conf s.builds := by
      simpa using hpred
    intro hbeq
    exact hnvic ((eq_of_beq hbeq) ▸ hv)
  · intro v hv hvs
    obtain ⟨_, hpred⟩ := List.mem_filter.mp hvs
    have : v ∉ evictionVictims conf s.builds := by simpa using hpred
    exact this hv

theorem confGet_confSet_same (c : ConfDict) (k : ConfKey) (v : ConfValue) :
    confGet (confSet c k v) k = some v := by
  induction c with
  | nil => simp [confSet, confGet]
  | cons kv rest ih =>
    obtain ⟨k', v'⟩ := kv
    by_cases h : k' = k
    · simp [confSet, h, confGet]
    · simp [confSet, h, confGet, ih]

theorem confGet_confSet_diff (c : ConfDict) (k' k : ConfKey) (v : ConfValue)
    (h : k' ≠ k) : confGet (confSet c k' v) k = confGet c k := by
  induction c with
  | nil => simp [confSet, confGet, h]
  | cons kv rest ih =>
    obtain ⟨k₀, v₀⟩ := kv
    by_cases h₀ : k₀ = k'
    · subst h₀
      simp [confSet, confGet, h]
    · simp only [confSet, if_neg h₀]
      by_cases h₁ : k₀ = k
      · simp [confGet, h₁]
      · simp [confGet, h₁, ih]

theorem confGet_applyStep_preserved {c : ConfDict} {k : ConfKey} {v : ConfValue}
    (h : confGet c k = some v) (kv : ConfKey × ConfValue) :
    confGet (if (confGet c kv.1).isNone then confSet c kv.1 kv.2 else c) k
      = some v := by
  by_cases hn : (confGet c kv.1).isNone
  · rw [if_pos hn]
    by_cases hk : kv.1 = k
    · subst hk
      rw [h] at hn
      simp at hn
    · rw [confGet_confSet_diff c kv.1 k kv.2 hk]
      exact h
  · rw [if_neg hn]
    exact h

theorem confGet_foldl_preserved (defaults : ConfDict) {c : ConfDict}
    {k : ConfKey} {v : ConfValue} (h : confGet c k = some v) :
    confGet (defaults.foldl
      (fun c kv => if (confGet c kv.1).isNone then confSet c kv.1 kv.2 else c)
      c) k = some v := by
  induction defaults generalizing c with
  | nil => exact h
  | cons kv rest ih => exact ih (confGet_applyStep_preserved h kv)

theorem confGet_foldl_default (defaults : ConfDict) {c : ConfDict}
    {k : ConfKey} {v : ConfValue}
    (hnd : (defaults.map Prod.fst).Nodup)
    (hmem : (k, v) ∈ defaults)
    (hnone : confGet c k = none) :
    confGet (defaults.foldl
      (fun c kv => if (confGet c kv.1).isNone then confSet c kv.1 kv.2 else c)
      c) k = some v := by
  induction defaults generalizing c with
  | nil => simp at hmem
  | cons kv rest ih =>
    simp only [List.foldl_cons]
    rcases List.mem_cons.mp hmem with heq | hmem'
    · subst heq
      rw [if_pos (by rw [hnone]; rfl)]
      exact confGet_foldl_preserved rest (confGet_confSet_same c k v)
    · have hk1 : kv.1 ≠ k := by
        intro he
        have hkin : k ∈ rest.map Prod.fst :=
          List.mem_map.mpr ⟨(k, v), hmem', rfl⟩
        rw [List.map_cons, List.nodup_cons] at hnd
        exact hnd.1 (he ▸ hkin)
      have hnone' : confGet
          (if (confGet c kv.1).isNone then confSet c kv.1 kv.2 else c) k
          = none := by
        by_cases hn : (confGet c kv.1).isNone
        · rw [if_pos hn, confGet_confSet_diff c kv.1 k kv.2 hk1]
          exact hnone
        · rw [if_neg hn]
          exact hnone
      have hnd' : (rest.map Prod.fst).Nodup := by
        rw [List.map_cons, List.nodup_cons] at hnd
        exact hnd.2
      exact ih hnd' hmem' hnone'

/-- A small concrete Registry used by the witnesses: build 1 is `Complete`,
build 2 is `Building`, and id 3 is unknown. -/
def demoRegistry : List BuildRecord :=
  [⟨1, .complete⟩, ⟨2, .building⟩]

/-- C1: for every post-build action request (download, emulate, deploy, run,
debug) on a buildNumber id, an unknown id fails with `BuildNotFound`; a
known Record whose status is not `Complete` fails with `BuildNotCompleted`
and the delegated action is not invoked; the delegated action is invoked
exactly when the Record is `Complete`. -/
theorem postBuildAction_requires_complete (registry : List BuildRecord)
    (id : Nat) :
    (getBuildInfo registry id = none →
      postBuildAction registry id = .failed ⟨404, .buildNotFound id⟩) ∧
    (∀ b, getBuildInfo registry id = some b → b.status ≠ .complete →
      postBuildAction registry id = .failed ⟨404, .buildNotCompleted b.status⟩) ∧
    (∀ b, getBuildInfo registry id = some b → b.status = .complete →
      postBuildAction registry id = .invoked b) := by
  refine ⟨?_, ?_, ?_⟩
  · intro h
    simp [postBuildAction, getCompletedBuildInfo, h]
  · intro b hb hne
    simp [postBuildAction, getCompletedBuildInfo, hb,
      BuildRecord.buildSuccessful, hne]
  · intro b hb he
    simp [postBuildAction, getCompletedBuildInfo, hb,
      BuildRecord.buildSuccessful, he]

/-- Witness for C1 at the concrete Registry `demoRegistry`. -/
theorem postBuildAction_requires_complete_witness :
    getBuildInfo demoRegistry 2 = some ⟨2, .building⟩ ∧
    postBuildAction demoRegistry 2 = .failed ⟨404, .buildNotCompleted .building⟩ ∧
    postBuildAction demoRegistry 1 = .invoked ⟨1, .complete⟩ ∧
    postBuildAction demoRegistry 3 = .failed ⟨404, .buildNotFound 3⟩ :=
  ⟨by decide,
    (postBuildAction_requires_complete demoRegistry 2).2.1 ⟨2, .building⟩
      (by decide) (by decide),
    (postBuildAction_requires_complete demoRegistry 1).2.2 ⟨1, .complete⟩
      (by decide) rfl,
    (postBuildAction_requires_complete demoRegistry 3).1 (by decide)⟩

/-- C2: a submission made while the number of `Queued`-or-`Building`
Records is at or above `maxBuildsInQueue` fails with `QueueFull`; the error
is the synchronous result, and the returned state is the submitter's state
unchanged — no buildNumber allocated, no Record created or registered. -/
theorem submitNewBuild_queueFull (conf : TacoRemoteConf)
    (s : BuildManagerState)
    (h : conf.maxBuildsInQueue ≤ activeCount s.builds) :
    submitNewBuild conf s = (.error .queueFull, s) := by
  unfold submitNewBuild
  rw [if_pos h]

/-- Concrete configuration for the C2 witness: admission ceiling 1. -/
def demoConfC2 : TacoRemoteConf := ⟨1, 20⟩

/-- Concrete state for the C2 witness: one `Queued` Record. -/
def demoStateC2 : BuildManagerState := ⟨2, [⟨1, .queued⟩], [1], []⟩

/-- Witness for C2: with ceiling 1 and one active Record, submit fails with
`QueueFull` and leaves the state untouched. -/
theorem submitNewBuild_queueFull_witness :
    demoConfC2.maxBuildsInQueue ≤ activeCount demoStateC2.builds ∧
    submitNewBuild demoConfC2 demoStateC2 = (.error .queueFull, demoStateC2) :=
  ⟨by decide, submitNewBuild_queueFull demoConfC2 demoStateC2 (by decide)⟩

/-- C3: along every event sequence from server start, the buildNumbers
returned by accepted submissions are strictly increasing in submission
order; in particular they are unique and never reused. -/
theorem assignedNumbers_strictly_increasing (conf : TacoRemoteConf)
    (events : List BuildEvent) :
    List.Pairwise (· < ·) (assignedNumbers conf initState events) ∧
    (assignedNumbers conf initState events).Nodup := by
  have h := (assignedNumbers_pairwise_aux conf events initState).1
  exact ⟨h, nodup_of_sorted h⟩

/-- C4: in every reachable state of the build manager, at most one Build
Record has `status == Building`. -/
theorem at_most_one_building (conf : TacoRemoteConf)
    (events : List BuildEvent) :
    (runEvents conf events).builds.countP
      (fun r => r.status == .building) ≤ 1 :=
  (stateInv_runEvents conf events).oneBuilding

/-- C5: in every reachable state, the history of buildNumbers in the order
they entered `Building` is strictly increasing — builds start executing in
strict FIFO submission order (buildNumbers are assigned in submission
order, claim C3), with no reordering. -/
theorem builds_start_in_fifo_order (conf : TacoRemoteConf)
    (events : List BuildEvent) :
    List.Pairwise (· < ·) (runEvents conf events).started :=
  (stateInv_runEvents conf events).startedSorted

/-- C6: whenever the count of terminal (`Complete`/`Error`) Records exceeds
`maxBuildsToKeep`, the eviction pass removes exactly the terminal Records
with the smallest buildNumbers in excess of the limit (deleting their
storage entries and removing them from the Registry); `Queued`/`Building`
Records are never evicted; evicted buildNumbers subsequently yield
`BuildNotFound` (`getBuildInfo` returns none). -/
theorem evictOldBuilds_evicts_oldest_terminal (conf : TacoRemoteConf)
    (s : BuildManagerState)
    (hnd : (buildNumbers s.builds).Nodup)
    (hover : conf.maxBuildsToKeep < (terminalBuilds s.builds).length) :
    evictionCorrect conf s :=
  evictOldBuilds_correct conf s hnd hover

/-- Concrete configuration for the C6 witness: retention ceiling 1. -/
def demoConfC6 : TacoRemoteConf := ⟨10, 1⟩

/-- Concrete state for the C6 witness: two terminal Records (1 `Complete`,
2 `Error`) and one `Queued` Record. -/
def demoStateC6 : BuildManagerState :=
  ⟨4, [⟨1, .complete⟩, ⟨2, .error⟩, ⟨3, .queued⟩], [1, 2, 3], []⟩

/-- Witness for C6 at a state with 2 terminal Records and ceiling 1. -/
theorem evictOldBuilds_evicts_oldest_terminal_witness :
    (buildNumbers demoStateC6.builds).Nodup ∧
    demoConfC6.maxBuildsToKeep < (terminalBuilds demoStateC6.builds).length ∧
    evictionCorrect demoConfC6 demoStateC6 :=
  ⟨by decide, by decide,
    evictOldBuilds_evicts_oldest_terminal demoConfC6 demoStateC6
      (by decide) (by decide)⟩

/-- C7 counterexample: `getRouter` registers no route whose pattern is
`/build/:id/log` — the claimed `GET /build/{id}/log` endpoint does not
exist in the route table. -/
theorem getRouter_no_build_id_log_route :
    getRouterRoutes.all (fun r => !(r.pattern == "/build/:id/log")) = true := by
  decide

/-- C7 (amended): the log endpoint is `GET /build/tasks/:id/log`; for a
known build the handler streams the log from the optional byte offset
(`req.query.offset | 0`, so from 0 when the offset is absent), and for an
unknown id it fails with `BuildNotFound`. -/
theorem getBuildLog_endpoint (logStore : Nat → List Char)
    (registry : List BuildRecord) (id : Nat) (offset : Option Nat) :
    (Route.mk .httpGet "/build/tasks/:id/log" .getBuildLogH ∈ getRouterRoutes) ∧
    (getBuildInfo registry id = none →
      getBuildLogHandler logStore registry id offset = ⟨404, .buildNotFound id⟩) ∧
    (∀ b, getBuildInfo registry id = some b → ∀ n, offset = some n →
      getBuildLogHandler logStore registry id offset
        = ⟨200, .logContent ((logStore id).drop n)⟩) ∧
    (getBuildInfo registry id ≠ none → offset = none →
      getBuildLogHandler logStore registry id offset
        = ⟨200, .logContent (logStore id)⟩) := by
  refine ⟨by decide, ?_, ?_, ?_⟩
  · intro h
    simp [getBuildLogHandler, h]
  · intro b hb n hn
    simp [getBuildLogHandler, hb, hn, downloadBuildLog, offsetOrZero]
  · intro h hn
    cases hb : getBuildInfo registry id with
    | none => exact absurd hb h
    | some b =>
      simp [getBuildLogHandler, hb, hn, downloadBuildLog, offsetOrZero]

/-- Concrete log store for the C7 witness. -/
def demoLogStore : Nat → List Char := fun _ => ['a', 'b', 'c']

/-- Witness for the amended C7 at concrete inputs: offset 1 on the known
build 1, and an unknown id 3. -/
theorem getBuildLog_endpoint_witness :
    getBuildInfo demoRegistry 1 = some ⟨1, .complete⟩ ∧
    getBuildLogHandler demoLogStore demoRegistry 1 (some 1)
      = ⟨200, .logContent ((demoLogStore 1).drop 1)⟩ ∧
    getBuildLogHandler demoLogStore demoRegistry 3 none
      = ⟨404, .buildNotFound 3⟩ :=
  ⟨by decide,
    (getBuildLog_endpoint demoLogStore demoRegistry 1 (some 1)).2.2.1
      ⟨1, .complete⟩ (by decide) 1 rfl,
    (getBuildLog_endpoint demoLogStore demoRegistry 3 none).2.1 (by decide)⟩

/-- C8: the status queries `GET /build/tasks/:id` and `GET /build/:id` both
dispatch to `getBuildStatus`; handling one leaves the Registry unchanged,
and repeating the same query on the unchanged Registry returns the same
response — the handler is idempotent and side-effect free. -/
theorem getBuildStatus_side_effect_free (registry : List BuildRecord)
    (id : Nat) :
    (Route.mk .httpGet "/build/tasks/:id" .getBuildStatusH ∈ getRouterRoutes) ∧
    (Route.mk .httpGet "/build/:id" .getBuildStatusH ∈ getRouterRoutes) ∧
    (getBuildStatusHandler registry id).2 = registry ∧
    getBuildStatusHandler ((getBuildStatusHandler registry id).2) id
      = getBuildStatusHandler registry id := by
  have hframe : (getBuildStatusHandler registry id).2 = registry := by
    unfold getBuildStatusHandler
    split <;> rfl
  exact ⟨by decide, by decide, hframe, by rw [hframe]⟩

/-- C9: every recognized option left unset in the configuration receives
its default (`maxBuildsInQueue = 10`, `maxBuildsToKeep = 20`,
`deleteBuildsOnShutdown = true`, `allowsEmulate = true`), and an option
explicitly set in the configuration is never overwritten by its default. -/
theorem applyDefaults_fills_unset_only (conf : ConfDict) :
    (confGet conf .maxBuildsInQueue = none →
      confGet (applyDefaults conf) .maxBuildsInQueue = some (.natVal 10)) ∧
    (confGet conf .maxBuildsToKeep = none →
      confGet (applyDefaults conf) .maxBuildsToKeep = some (.natVal 20)) ∧
    (confGet conf .deleteBuildsOnShutdown = none →
      confGet (applyDefaults conf) .deleteBuildsOnShutdown
        = some (.boolVal true)) ∧
    (confGet conf .allowsEmulate = none →
      confGet (applyDefaults conf) .allowsEmulate = some (.boolVal true)) ∧
    (∀ k v, confGet conf k = some v → confGet (applyDefaults conf) k = some v) := by
  have hnd : ((hostSpecificsDefaults serverDefaults).map Prod.fst).Nodup := by
    decide
  unfold applyDefaults
  refine ⟨?_, ?_, ?_, ?_, ?_⟩
  · intro h
    exact confGet_foldl_default _ hnd (by decide) h
  · intro h
    exact confGet_foldl_default _ hnd (by decide) h
  · intro h
    exact confGet_foldl_default _ hnd (by decide) h
  · intro h
    exact confGet_foldl_default _ hnd (by decide) h
  · intro k v h
    exact confGet_foldl_preserved _ h

/-- Concrete configuration for the C9 witness: only `allowsEmulate` set,
explicitly to false. -/
def demoConfDict : ConfDict := [(.allowsEmulate, .boolVal false)]

/-- Witness for C9: the unset `maxBuildsInQueue` receives 10 while the
explicitly-set `allowsEmulate = false` is not overwritten. -/
theorem applyDefaults_fills_unset_only_witness :
    confGet demoConfDict .maxBuildsInQueue = none ∧
    confGet (applyDefaults demoConfDict) .maxBuildsInQueue
      = some (.natVal 10) ∧
    confGet demoConfDict .allowsEmulate = some (.boolVal false) ∧
    confGet (applyDefaults demoConfDict) .allowsEmulate
      = some (.boolVal false) :=
  ⟨by decide,
    (applyDefaults_fills_unset_only demoConfDict).1 (by decide),
    by decide,
    (applyDefaults_fills_unset_only demoConfDict).2.2.2.2 .allowsEmulate
      (.boolVal false) (by decide)⟩

/-- C10: both failure outcomes of `getCompletedBuildInfo` — unknown
buildNumber (`BuildNotFound`) and known-but-not-successful build
(`BuildNotCompleted`) — carry HTTP status code 404; every response it
writes has status 404, and the two bodies are distinct, so the cases are
distinguishable only by the response body, never by the status code. -/
theorem completed_build_failures_both_404 (registry : List BuildRecord)
    (id : Nat) :
    (getBuildInfo registry id = none →
      (getCompletedBuildInfo registry id).2
        = some ⟨404, .buildNotFound id⟩) ∧
    (∀ b, getBuildInfo registry id = some b → b.buildSuccessful = false →
      (getCompletedBuildInfo registry id).2
        = some ⟨404, .buildNotCompleted b.status⟩) ∧
    (∀ resp, (getCompletedBuildInfo registry id).2 = some resp →
      resp.statusCode = 404) ∧
    (∀ i st, ResponseBody.buildNotFound i ≠ ResponseBody.buildNotCompleted st) := by
  refine ⟨?_, ?_, ?_, ?_⟩
  · intro h
    simp [getCompletedBuildInfo, h]
  · intro b hb hns
    simp [getCompletedBuildInfo, hb, hns]
  · intro resp hresp
    unfold getCompletedBuildInfo at hresp
    cases h : getBuildInfo registry id with
    | none =>
      rw [h] at hresp
      cases hresp
      rfl
    | some b =>
      rw [h] at hresp
      by_cases hs : b.buildSuccessful
      · simp [hs] at hresp
      · simp [hs] at hresp
        rw [← hresp]
  · intro i st hne
    cases hne

/-- Witness for C10 at the concrete Registry `demoRegistry`. -/
theorem completed_build_failures_both_404_witness :
    (getCompletedBuildInfo demoRegistry 3).2 = some ⟨404, .buildNotFound 3⟩ ∧
    (getCompletedBuildInfo demoRegistry 2).2
      = some ⟨404, .buildNotCompleted .building⟩ :=
  ⟨(completed_build_failures_both_404 demoRegistry 3).1 (by decide),
    (completed_build_failures_both_404 demoRegistry 2).2.1 ⟨2, .building⟩
      (by decide) (by decide)⟩
